import Mathlib

/-!
Verification of the shooting-gallery game core (src/src/game.js and
src/src/main.js): match state machine (start / update / shoot), target
lifecycle (standing → falling → fallen), scoring, countdown timer, and the
pinch-gesture debouncing of the gesture interpreter.

Modelling conventions:
* JS numbers are modelled as rationals (ℚ); `Math.PI / 2` is embedded as its
  exact IEEE-754 double value 884279719003555 / 2^49, which is the constant
  the running program actually compares against.
* Target `state` strings become the inductive type `DollState`.
* The Three.js raycaster is an external collaborator (spec §6): `shoot`
  receives the ordered nearest-first list of intersected target indices.
* DOM / audio side effects carry no game state and are dropped; the value the
  engine writes into the time bar transform (`scaleX(pct / 100)`) is kept as
  `Game.timeBarScale`.
-/

namespace Shateki

/-- The exact value of the IEEE-754 double `Math.PI / 2`
(0x3FF921FB54442D18 = 884279719003555 · 2⁻⁴⁹), the terminal fall angle. -/
def PIhalf : ℚ := 884279719003555 / 562949953421312

/-- Lifecycle state of a target, `doll.userData.state` in game.js
("standing" | "falling" | "fallen"). -/
inductive DollState where
  | standing
  | falling
  | fallen
deriving DecidableEq, Repr

/-- One target (a doll pivot group together with its mesh's userData):
shelf row `layerIndex`, fixed `points`, lifecycle `state`, and the pivot's
fall rotation `pivot.rotation.x`. -/
structure Doll where
  layerIndex : ℕ
  points : ℕ
  state : DollState
  rotationX : ℚ
deriving DecidableEq, Repr

/-- The point value assigned at creation: `(3 - layerIndex) * 10`
(game.js line 73). -/
def dollPoints (layerIndex : ℕ) : ℕ := (3 - layerIndex) * 10

/-- The dolls of one shelf: `count = 5 + layerIndex` dolls, each standing
with zero rotation and points `dollPoints layerIndex` (game.js lines 60-85;
x/y/z positions do not affect the claims and are not tracked). -/
def mkShelf (layerIndex : ℕ) : List Doll :=
  List.replicate (5 + layerIndex)
    { layerIndex := layerIndex, points := dollPoints layerIndex,
      state := DollState.standing, rotationX := 0 }

/-- `Game.createDolls`: three shelves (shelfY = [2, -1, -4], layer indices
0, 1, 2 top to bottom). -/
def createDolls : List Doll := mkShelf 0 ++ mkShelf 1 ++ mkShelf 2

/-- Match state owned by the `Game` class. -/
structure Game where
  score : ℕ
  timeLeft : ℚ
  isPlaying : Bool
  dolls : List Doll
deriving DecidableEq, Repr

/-- `this.totalTime = 30` (game.js line 8). -/
def totalTime : ℚ := 30

/-- The game as the constructor leaves it: score 0, timeLeft = totalTime,
not playing, dolls as created by `createDolls`. -/
def initGame : Game :=
  { score := 0, timeLeft := totalTime, isPlaying := false, dolls := createDolls }

/-- Reset of one doll performed by `Game.start`:
`pivot.rotation.x = 0; pivot.children[0].userData.state = "standing"`. -/
def Doll.reset (d : Doll) : Doll :=
  { d with rotationX := 0, state := DollState.standing }

/-- `Game.start` (game.js lines 89-100). -/
def Game.start (g : Game) : Game :=
  { g with
    score := 0
    timeLeft := totalTime
    isPlaying := true
    dolls := g.dolls.map Doll.reset }

/-- Per-doll part of `Game.update` (game.js lines 113-123): a falling doll
rotates by `-5 * dt`; if the rotation goes strictly below `-Math.PI / 2` it
is clamped there and the state becomes fallen. -/
def Doll.fall (dt : ℚ) (d : Doll) : Doll :=
  if d.state = DollState.falling then
    let r := d.rotationX - 5 * dt
    if r < -PIhalf then
      { d with rotationX := -PIhalf, state := DollState.fallen }
    else
      { d with rotationX := r }
  else d

/-- `Game.update` (game.js lines 102-126): no-op when not playing; otherwise
decrement the timer, clamp at 0 and end the game when it crosses `<= 0`, and
advance the fall animation of every doll (the doll loop runs even on the
frame on which the game ends, as in the source). -/
def Game.update (g : Game) (dt : ℚ) : Game :=
  if g.isPlaying then
    let t := g.timeLeft - dt
    if t ≤ 0 then
      { g with
        timeLeft := 0
        isPlaying := false
        dolls := g.dolls.map (Doll.fall dt) }
    else
      { g with timeLeft := t, dolls := g.dolls.map (Doll.fall dt) }
  else g

/-- `Game.shoot` (game.js lines 128-149). The raycaster is external: `hits`
is the nearest-first ordered list of intersected doll indices returned by
`raycaster.intersectObjects`; the code looks only at `intersects[0]`.
Returns the new state and the hit report (`true` on hit). -/
def Game.shoot (g : Game) (hits : List ℕ) : Game × Bool :=
  if g.isPlaying then
    match hits with
    | [] => (g, false)
    | i :: _ =>
      match g.dolls[i]? with
      | none => (g, false)
      | some d =>
        if d.state = DollState.standing then
          ({ g with
             score := g.score + d.points
             dolls := g.dolls.set i { d with state := DollState.falling } },
           true)
        else (g, false)
  else (g, false)

/-- The horizontal scale the engine writes into the time bar
(`updateUI`, game.js lines 153-155): `pct = (timeLeft / 60) * 100`,
`scaleX(pct / 100)`. -/
def Game.timeBarScale (g : Game) : ℚ := g.timeLeft / 60 * 100 / 100

/-- The time-remaining fraction as the spec describes it: `timeLeft` divided
by the total match duration (spec §6, "time-remaining fraction (float 0-1)").
Stated from the spec for comparison with `Game.timeBarScale`. -/
def timeFractionSpec (g : Game) : ℚ := g.timeLeft / totalTime

/-- Iterated `update` over a list of frame time deltas. -/
def runUpdates (g : Game) (dts : List ℚ) : Game :=
  dts.foldl Game.update g

/-- An engine operation performed during a match. -/
inductive Op where
  | upd (dt : ℚ)
  | sht (hits : List ℕ)

/-- Apply one operation to the match state. -/
def Game.applyOp (g : Game) : Op → Game
  | Op.upd dt => g.update dt
  | Op.sht hits => (g.shoot hits).1

/-- Iterated operations. -/
def runOps (g : Game) (ops : List Op) : Game :=
  ops.foldl Game.applyOp g

/-- Total point value of the knocked-over (not standing) dolls of a list. -/
def downedOf (l : List Doll) : ℕ :=
  ((l.filter (fun d => d.state ≠ DollState.standing)).map Doll.points).sum

/-- Total point value of the targets currently knocked over (not standing). -/
def downedValue (g : Game) : ℕ := downedOf g.dolls

/-- The per-match identity of a doll: its shelf row and point value, the
data `Game.start` does not touch. -/
def Doll.persistent (d : Doll) : ℕ × ℕ := (d.layerIndex, d.points)

/-- The doll determined by per-match identity alone, as `Game.start` leaves
it: standing with zero rotation. -/
def Doll.ofPersistent (p : ℕ × ℕ) : Doll :=
  { layerIndex := p.1, points := p.2, state := DollState.standing, rotationX := 0 }

/-- A concrete mid-fall doll (top shelf, fall just begun). -/
def fallingDoll : Doll :=
  { layerIndex := 0, points := 30, state := DollState.falling, rotationX := 0 }

/-- The scoring invariant: the score equals the total value of the
knocked-over targets, and the per-doll point values are the created ones. -/
def ScoreInv (g : Game) : Prop :=
  g.score = downedValue g ∧ g.dolls.map Doll.points = createDolls.map Doll.points

/- ---------------------------------------------------------------------
Gesture interpreter (src/src/main.js).
--------------------------------------------------------------------- -/

/-- `PINCH_THRESHOLD = 0.05` (main.js line 80). -/
def PINCH_THRESHOLD : ℚ := 5 / 100

/-- Gesture interpreter state: the edge-trigger latch `isPinching` and the
cooldown timer `pinchCooldown` (main.js lines 78-79). -/
structure PinchState where
  isPinching : Bool
  cooldown : ℚ
deriving DecidableEq, Repr

/-- Initial gesture state: `isPinching = false`, `pinchCooldown = 0`. -/
def initPinch : PinchState := { isPinching := false, cooldown := 0 }

/-- The cooldown decay performed each render tick
(`if (pinchCooldown > 0) pinchCooldown -= dt`, main.js line 140). -/
def decayCooldown (dt : ℚ) (s : PinchState) : PinchState :=
  if s.cooldown > 0 then { s with cooldown := s.cooldown - dt } else s

/-- The pinch branch of `processGestures` (main.js lines 110-121) for one
frame's thumb-to-index distance `d`: returns the new state and whether a
fire event (a call to `fireShot`) was emitted. -/
def processGesture (d : ℚ) (s : PinchState) : PinchState × Bool :=
  if d < PINCH_THRESHOLD then
    if s.isPinching = false ∧ s.cooldown ≤ 0 then
      ({ isPinching := true, cooldown := 1 / 2 }, true)
    else (s, false)
  else ({ s with isPinching := false }, false)

/-- One frame in which the render tick's cooldown decay (dt) runs before the
detection callback processes the distance sample `d`. -/
def stepFrame (dt d : ℚ) (s : PinchState) : PinchState × Bool :=
  processGesture d (decayCooldown dt s)

/-- Run a sequence of frames, collecting per-frame fire flags in order. -/
def runFrames (frames : List (ℚ × ℚ)) (s : PinchState) :
    PinchState × List Bool :=
  match frames with
  | [] => (s, [])
  | f :: rest =>
    let r := stepFrame f.1 f.2 s
    let r2 := runFrames rest r.1
    (r2.1, r.2 :: r2.2)

/- ---------------------------------------------------------------------
Helper lemmas.
--------------------------------------------------------------------- -/

/-- The fall animation never changes a doll's point value. -/
theorem fall_points (dt : ℚ) (d : Doll) : (Doll.fall dt d).points = d.points := by
  unfold Doll.fall
  split
  · dsimp only
    split <;> rfl
  · rfl

/-- The fall animation never changes whether a doll is standing. -/
theorem fall_standing_iff (dt : ℚ) (d : Doll) :
    (Doll.fall dt d).state = DollState.standing ↔ d.state = DollState.standing := by
  unfold Doll.fall
  split
  · rename_i h
    dsimp only
    split <;> simp [h]
  · exact Iff.rfl

/-- The fall animation moves a doll's state only forward. -/
theorem fall_state_forward (dt : ℚ) (d : Doll) :
    (Doll.fall dt d).state = d.state ∨
      (d.state = DollState.falling ∧ (Doll.fall dt d).state = DollState.fallen) := by
  unfold Doll.fall
  split
  · rename_i h
    dsimp only
    split
    · exact Or.inr ⟨h, rfl⟩
    · exact Or.inl rfl
  · exact Or.inl rfl

/-- Resetting a doll is determined by its per-match identity. -/
theorem reset_eq_ofPersistent (d : Doll) :
    Doll.reset d = Doll.ofPersistent (Doll.persistent d) := rfl

/-- After `start`, every doll is standing with zero rotation. -/
theorem start_resets_dolls (g : Game) :
    ∀ d ∈ (Game.start g).dolls, d.state = DollState.standing ∧ d.rotationX = 0 := by
  intro d hd
  simp only [Game.start, List.mem_map] at hd
  obtain ⟨a, _, rfl⟩ := hd
  exact ⟨rfl, rfl⟩

/-- The dolls after an update: animated when playing, untouched otherwise. -/
theorem update_dolls (g : Game) (dt : ℚ) :
    (g.update dt).dolls =
      if g.isPlaying then g.dolls.map (Doll.fall dt) else g.dolls := by
  unfold Game.update
  split
  · dsimp only
    split <;> rfl
  · rfl

/-- `update` is a no-op once the match has ended. -/
theorem update_not_playing (g : Game) (dt : ℚ) (h : g.isPlaying = false) :
    g.update dt = g := by
  simp [Game.update, h]

/-- `update` never changes the score. -/
theorem update_score (g : Game) (dt : ℚ) : (g.update dt).score = g.score := by
  unfold Game.update
  split
  · dsimp only
    split <;> rfl
  · rfl

theorem runUpdates_nil (g : Game) : runUpdates g [] = g := rfl

theorem runUpdates_cons (g : Game) (dt : ℚ) (rest : List ℚ) :
    runUpdates g (dt :: rest) = runUpdates (g.update dt) rest := rfl

/-- Iterated `update` is a no-op once the match has ended. -/
theorem runUpdates_not_playing (g : Game) (dts : List ℚ)
    (h : g.isPlaying = false) : runUpdates g dts = g := by
  induction dts with
  | nil => rfl
  | cons dt rest ih =>
    rw [runUpdates_cons, update_not_playing g dt h]
    exact ih

/-- `shoot` on a non-playing game returns everything unchanged. -/
theorem shoot_no_play (g : Game) (hits : List ℕ) (h : g.isPlaying = false) :
    g.shoot hits = (g, false) := by
  simp [Game.shoot, h]

/-- Unfolding of `shoot` on a nonempty hit list of a playing game. -/
theorem shoot_cons_eq (g : Game) (i : ℕ) (rest : List ℕ) (d : Doll)
    (hp : g.isPlaying = true) (hd : g.dolls[i]? = some d) :
    g.shoot (i :: rest) =
      if d.state = DollState.standing then
        ({ g with
           score := g.score + d.points
           dolls := g.dolls.set i { d with state := DollState.falling } },
         true)
      else (g, false) := by
  simp only [Game.shoot, hp, if_true, hd]

/-- `shoot` at a standing nearest target: hit, credit, knock over. -/
theorem shoot_hit_standing (g : Game) (i : ℕ) (rest : List ℕ) (d : Doll)
    (hp : g.isPlaying = true) (hd : g.dolls[i]? = some d)
    (hs : d.state = DollState.standing) :
    g.shoot (i :: rest) =
      ({ g with
         score := g.score + d.points
         dolls := g.dolls.set i { d with state := DollState.falling } },
       true) := by
  rw [shoot_cons_eq g i rest d hp hd, if_pos hs]

/-- `shoot` at a nearest target that is not standing: miss, no change. -/
theorem shoot_not_standing (g : Game) (i : ℕ) (rest : List ℕ) (d : Doll)
    (hd : g.dolls[i]? = some d) (hs : d.state ≠ DollState.standing) :
    g.shoot (i :: rest) = (g, false) := by
  by_cases hp : g.isPlaying = true
  · rw [shoot_cons_eq g i rest d hp hd, if_neg hs]
  · exact shoot_no_play g _ (by simpa using hp)

/-- Every `shoot` either leaves the game unchanged or knocks over exactly one
standing doll, the nearest intersected one, crediting its points. -/
theorem shoot_cases (g : Game) (hits : List ℕ) :
    (g.shoot hits).1 = g ∨
    ∃ j dj, g.dolls[j]? = some dj ∧ dj.state = DollState.standing ∧
      (g.shoot hits).1 = { g with
        score := g.score + dj.points
        dolls := g.dolls.set j { dj with state := DollState.falling } } := by
  by_cases hp : g.isPlaying = true
  · cases hits with
    | nil => exact Or.inl (by simp [Game.shoot, hp])
    | cons i rest =>
      cases hd : g.dolls[i]? with
      | none => exact Or.inl (by simp [Game.shoot, hp, hd])
      | some d =>
        by_cases hs : d.state = DollState.standing
        · exact Or.inr ⟨i, d, hd, hs, by rw [shoot_cons_eq g i rest d hp hd, if_pos hs]⟩
        · exact Or.inl (by rw [shoot_cons_eq g i rest d hp hd, if_neg hs])
  · exact Or.inl (by simp [Game.shoot, hp])

/-- Animating a list of dolls keeps the point values pointwise. -/
theorem map_points_fall (dt : ℚ) (l : List Doll) :
    (l.map (Doll.fall dt)).map Doll.points = l.map Doll.points := by
  rw [List.map_map]
  exact List.map_congr_left fun d _ => fall_points dt d

/-- Replacing one doll by one with the same points keeps the points list. -/
theorem map_points_set (l : List Doll) (i : ℕ) (d d' : Doll)
    (h : l[i]? = some d) (hp : d'.points = d.points) :
    (l.set i d').map Doll.points = l.map Doll.points := by
  induction l generalizing i with
  | nil => simp at h
  | cons a t ih =>
    cases i with
    | zero =>
      simp only [List.getElem?_cons_zero, Option.some.injEq] at h
      subst h
      simp [hp]
    | succ n =>
      simp only [List.getElem?_cons_succ] at h
      simp only [List.set_cons_succ, List.map_cons, List.cons.injEq, true_and]
      exact ih n h

/-- The points list is unchanged by `update` and by `shoot`. -/
theorem applyOp_points (g : Game) (op : Op) :
    (g.applyOp op).dolls.map Doll.points = g.dolls.map Doll.points := by
  cases op with
  | upd dt =>
    show (g.update dt).dolls.map Doll.points = _
    rw [update_dolls]
    split
    · exact map_points_fall dt g.dolls
    · rfl
  | sht hits =>
    show ((g.shoot hits).1).dolls.map Doll.points = _
    rcases shoot_cases g hits with h | ⟨j, dj, hd, _, h⟩
    · rw [h]
    · rw [h]
      exact map_points_set g.dolls j dj _ hd rfl

/-- `start` keeps the points list. -/
theorem start_points (g : Game) :
    (Game.start g).dolls.map Doll.points = g.dolls.map Doll.points := by
  show (g.dolls.map Doll.reset).map Doll.points = _
  rw [List.map_map]
  exact List.map_congr_left fun d _ => rfl

/-- `downedOf` over a cons. -/
theorem downedOf_cons (d : Doll) (t : List Doll) :
    downedOf (d :: t) =
      (if d.state = DollState.standing then 0 else d.points) + downedOf t := by
  by_cases h : d.state = DollState.standing <;>
    simp [downedOf, List.filter_cons, h]

/-- Fall animation does not change the total downed value. -/
theorem downedOf_map_fall (dt : ℚ) (l : List Doll) :
    downedOf (l.map (Doll.fall dt)) = downedOf l := by
  induction l with
  | nil => rfl
  | cons d t ih =>
    rw [List.map_cons, downedOf_cons, downedOf_cons, ih]
    congr 1
    by_cases h : d.state = DollState.standing
    · rw [if_pos ((fall_standing_iff dt d).mpr h), if_pos h]
    · rw [if_neg (fun hc => h ((fall_standing_iff dt d).mp hc)), if_neg h,
        fall_points]

/-- Knocking over a standing doll adds exactly its points to the total
downed value. -/
theorem downedOf_set_falling (l : List Doll) (i : ℕ) (d : Doll)
    (h : l[i]? = some d) (hs : d.state = DollState.standing) :
    downedOf (l.set i { d with state := DollState.falling }) =
      downedOf l + d.points := by
  induction l generalizing i with
  | nil => simp at h
  | cons a t ih =>
    cases i with
    | zero =>
      simp only [List.getElem?_cons_zero, Option.some.injEq] at h
      subst h
      rw [List.set_cons_zero, downedOf_cons, downedOf_cons, if_pos hs]
      simp
      omega
    | succ n =>
      simp only [List.getElem?_cons_succ] at h
      rw [List.set_cons_succ, downedOf_cons, downedOf_cons, ih n h]
      omega

/-- All-standing lists carry no downed value. -/
theorem downedOf_standing (l : List Doll)
    (h : ∀ d ∈ l, d.state = DollState.standing) : downedOf l = 0 := by
  induction l with
  | nil => rfl
  | cons d t ih =>
    rw [downedOf_cons, if_pos (h d (List.mem_cons_self d t)),
      ih fun d hd => h d (List.mem_cons_of_mem _ hd)]

/-- The downed value never exceeds the total value of all dolls. -/
theorem downedOf_le_total (l : List Doll) :
    downedOf l ≤ (l.map Doll.points).sum := by
  induction l with
  | nil => exact Nat.le_refl 0
  | cons d t ih =>
    rw [downedOf_cons, List.map_cons, List.sum_cons]
    by_cases h : d.state = DollState.standing
    · rw [if_pos h]
      omega
    · rw [if_neg h]
      omega

/- ---------------------------------------------------------------------
Claim theorems.
--------------------------------------------------------------------- -/

/-- C7: `shoot(aimPoint)` while `isPlaying` is false is a no-op that reports
no hit: the whole game state (score and every target state included) is
returned unchanged together with a `false` hit report. -/
theorem shoot_requires_playing (g : Game) (hits : List ℕ)
    (h : g.isPlaying = false) : g.shoot hits = (g, false) :=
  shoot_no_play g hits h

/-- Witness for C7 at a concrete non-playing game. -/
theorem shoot_requires_playing_witness :
    initGame.isPlaying = false ∧ Game.shoot initGame [0] = (initGame, false) :=
  ⟨rfl, shoot_requires_playing initGame [0] rfl⟩

/-- C6: `start()` establishes the same post-state regardless of prior state:
score 0, timeLeft = total duration, playing, every target standing with zero
fall rotation; it is idempotent, and two games with the same per-match doll
identities (shelf, points) are sent to the same post-state, so a start after
a completed match yields exactly the initial match state. -/
theorem start_establishes_initial_state :
    (∀ g : Game, (Game.start g).score = 0 ∧ (Game.start g).timeLeft = totalTime ∧
      (Game.start g).isPlaying = true) ∧
    (∀ g : Game, ∀ d ∈ (Game.start g).dolls,
      d.state = DollState.standing ∧ d.rotationX = 0) ∧
    (∀ g : Game, Game.start (Game.start g) = Game.start g) ∧
    (∀ g g' : Game,
      g.dolls.map Doll.persistent = g'.dolls.map Doll.persistent →
      Game.start g = Game.start g') := by
  refine ⟨fun g => ⟨rfl, rfl, rfl⟩, ?_, ?_, ?_⟩
  · intro g d hd
    simp only [Game.start, List.mem_map] at hd
    obtain ⟨a, _, rfl⟩ := hd
    exact ⟨rfl, rfl⟩
  · intro g
    simp only [Game.start, List.map_map]
    rfl
  · intro g g' h
    simp only [Game.start, Game.mk.injEq, and_true, true_and]
    calc g.dolls.map Doll.reset
        = (g.dolls.map Doll.persistent).map Doll.ofPersistent := by
          simp [List.map_map, reset_eq_ofPersistent, Function.comp]
      _ = (g'.dolls.map Doll.persistent).map Doll.ofPersistent := by rw [h]
      _ = g'.dolls.map Doll.reset := by
          simp [List.map_map, reset_eq_ofPersistent, Function.comp]

/-- Witness for C6 at concrete games: the completed-match state
`runUpdates (start initGame) [31]` restarts to exactly the same state as the
first start. -/
theorem start_establishes_initial_state_witness :
    (Game.start initGame).score = 0 ∧
    Game.start (Game.start initGame) = Game.start initGame ∧
    Game.start (runUpdates (Game.start initGame) [31]) = Game.start initGame := by
  refine ⟨(start_establishes_initial_state.1 initGame).1,
    start_establishes_initial_state.2.2.1 initGame,
    start_establishes_initial_state.2.2.2 (runUpdates (Game.start initGame) [31])
      initGame ?_⟩
  norm_num [runUpdates, Game.update, Game.start, Game.shoot, initGame,
    createDolls, mkShelf, Doll.reset, Doll.fall, Doll.persistent, totalTime,
    PIhalf, dollPoints, List.map_replicate]
  simp

/-- C9 (code bug): the scale the engine hands the time-bar UI is
`timeLeft / 60`, not `timeLeft / totalTime` with `totalTime = 30`; at the
start of a match it is 1/2 instead of the claimed 1. -/
theorem timeBar_scale_halved :
    (∀ g : Game, Game.timeBarScale g = g.timeLeft / 60) ∧
    Game.timeBarScale (Game.start initGame) = 1 / 2 ∧
    timeFractionSpec (Game.start initGame) = 1 ∧
    Game.timeBarScale (Game.start initGame) ≠
      timeFractionSpec (Game.start initGame) := by
  refine ⟨fun g => ?_,
    by norm_num [Game.timeBarScale, Game.start, totalTime],
    by norm_num [timeFractionSpec, Game.start, totalTime],
    by norm_num [Game.timeBarScale, timeFractionSpec, Game.start, totalTime]⟩
  unfold Game.timeBarScale
  ring

/-- C8: every target's point value is fixed at creation as a function of its
shelf, `(3 - layerIndex) * 10` = rowsFromBottom * 10: the top shelf (layer 0)
is worth 30, the middle 20, the bottom 10; targets on higher shelves are
strictly more valuable; and neither `update`, `shoot` nor `start` ever
changes a point value. -/
theorem points_fixed_by_shelf :
    (∀ d ∈ createDolls, d.points = (3 - d.layerIndex) * 10) ∧
    (∀ d ∈ createDolls,
      (d.layerIndex = 0 → d.points = 30) ∧
      (d.layerIndex = 1 → d.points = 20) ∧
      (d.layerIndex = 2 → d.points = 10)) ∧
    (∀ d1 ∈ createDolls, ∀ d2 ∈ createDolls,
      d1.layerIndex < d2.layerIndex → d2.points < d1.points) ∧
    (∀ (g : Game) (op : Op),
      (g.applyOp op).dolls.map Doll.points = g.dolls.map Doll.points) ∧
    (∀ g : Game,
      (Game.start g).dolls.map Doll.points = g.dolls.map Doll.points) := by
  exact ⟨by decide, by decide, by decide, applyOp_points, start_points⟩

/-- Witness for C8 at concrete dolls: a top-shelf doll and a bottom-shelf
doll of the created world. -/
theorem points_fixed_by_shelf_witness :
    ({ layerIndex := 0, points := dollPoints 0, state := DollState.standing,
       rotationX := 0 } : Doll).points = 30 ∧
    ({ layerIndex := 2, points := dollPoints 2, state := DollState.standing,
       rotationX := 0 } : Doll).points <
      ({ layerIndex := 0, points := dollPoints 0, state := DollState.standing,
         rotationX := 0 } : Doll).points := by
  refine ⟨(points_fixed_by_shelf.2.1 _ ?_).1 rfl,
    points_fixed_by_shelf.2.2.1 _ ?_ _ ?_ (by decide)⟩ <;>
    simp [createDolls, mkShelf]

/-- C4: a target's lifecycle only advances forward along
standing → falling → fallen: an `update` step changes a doll's state only
from falling to fallen, a `shoot` changes it only from standing to falling,
and `start` (and nothing else) puts every doll back to standing. -/
theorem target_state_monotone :
    (∀ (g : Game) (dt : ℚ) (i : ℕ) (d d' : Doll),
      g.dolls[i]? = some d → (g.update dt).dolls[i]? = some d' →
      d'.state = d.state ∨
        (d.state = DollState.falling ∧ d'.state = DollState.fallen)) ∧
    (∀ (g : Game) (hits : List ℕ) (i : ℕ) (d d' : Doll),
      g.dolls[i]? = some d → ((g.shoot hits).1).dolls[i]? = some d' →
      d'.state = d.state ∨
        (d.state = DollState.standing ∧ d'.state = DollState.falling)) ∧
    (∀ g : Game, ∀ d ∈ (Game.start g).dolls, d.state = DollState.standing) := by
  refine ⟨?_, ?_, fun g d hd => (start_resets_dolls g d hd).1⟩
  · intro g dt i d d' hd hd'
    rw [update_dolls] at hd'
    by_cases hp : g.isPlaying = true
    · rw [if_pos hp, List.getElem?_map, hd] at hd'
      simp only [Option.map_some'] at hd'
      obtain rfl := Option.some.inj hd'
      exact fall_state_forward dt d
    · rw [if_neg hp, hd] at hd'
      obtain rfl := Option.some.inj hd'
      exact Or.inl rfl
  · intro g hits i d d' hd hd'
    rcases shoot_cases g hits with h | ⟨j, dj, hdj, hs, h⟩
    · rw [h, hd] at hd'
      obtain rfl := Option.some.inj hd'
      exact Or.inl rfl
    · rw [h] at hd'
      dsimp only at hd'
      by_cases hij : j = i
      · subst hij
        rw [List.getElem?_set_self', hdj] at hd'
        simp only [Option.map_eq_map, Option.map_some, Function.const_apply,
          Option.some.injEq] at hd'
        obtain rfl := Option.some.inj (hd ▸ hdj)
        exact Or.inr ⟨hs, by rw [← hd']⟩
      · rw [List.getElem?_set_ne hij, hd] at hd'
        obtain rfl := Option.some.inj hd'
        exact Or.inl rfl

/-- Witness for C4 at a concrete shot: shooting the first (standing) doll of
a freshly started match moves it to falling. -/
theorem target_state_monotone_witness :
    DollState.falling = DollState.standing ∨
      (DollState.standing = DollState.standing ∧
        DollState.falling = DollState.falling) := by
  have hd : (Game.start initGame).dolls[0]? =
      some { layerIndex := 0, points := dollPoints 0,
             state := DollState.standing, rotationX := 0 } := by
    simp [Game.start, initGame, createDolls, mkShelf, Doll.reset,
      List.getElem?_append, List.getElem?_replicate]
  have hd' : (((Game.start initGame).shoot [0]).1).dolls[0]? =
      some { layerIndex := 0, points := dollPoints 0,
             state := DollState.falling, rotationX := 0 } := by
    rw [shoot_cons_eq (Game.start initGame) 0 [] _ rfl hd, if_pos rfl]
    dsimp only
    rw [List.getElem?_set_self', hd]
    rfl
  exact target_state_monotone.2.1 (Game.start initGame) [0] 0 _ _ hd hd'

/-- C5 counterexample: with a falling target at rotation 0 and the positive
frame time dt = (π/2)/5, the update lands the rotation exactly on the
terminal angle −π/2, yet the state remains falling and does not become
fallen, contrary to the claim that reaching the terminal angle makes the
state fallen. (dt = (π/2)/5 is exactly representable: the double π/2 has
mantissa 884279719003555, divisible by 5.) -/
theorem fall_terminal_not_fallen_counterexample :
    0 < PIhalf / 5 ∧
    (Doll.fall (PIhalf / 5) fallingDoll).rotationX = -PIhalf ∧
    (Doll.fall (PIhalf / 5) fallingDoll).state = DollState.falling ∧
    (Doll.fall (PIhalf / 5) fallingDoll).state ≠ DollState.fallen := by
  norm_num [Doll.fall, fallingDoll, PIhalf]
  decide

/-- C5 (amended): while a target is falling, each update decreases its
rotation by exactly 5·dt (strictly, when dt > 0); when the step would take
the rotation strictly below −π/2 it is clamped to exactly −π/2 and the state
becomes fallen; an update landing exactly on −π/2 leaves the target falling,
and the next update with dt > 0 keeps the rotation at −π/2 and sets the
state to fallen; a doll that is not falling is never changed by the
animation step. -/
theorem fall_clamp_amended :
    (∀ (dt : ℚ) (d : Doll), d.state = DollState.falling →
      d.rotationX - 5 * dt < -PIhalf →
      Doll.fall dt d =
        { d with rotationX := -PIhalf, state := DollState.fallen }) ∧
    (∀ (dt : ℚ) (d : Doll), d.state = DollState.falling →
      -PIhalf ≤ d.rotationX - 5 * dt →
      Doll.fall dt d = { d with rotationX := d.rotationX - 5 * dt } ∧
      (0 < dt → (Doll.fall dt d).rotationX < d.rotationX)) ∧
    (∀ (dt : ℚ) (d : Doll), d.state ≠ DollState.falling →
      Doll.fall dt d = d) ∧
    (∀ (dt : ℚ) (d : Doll), d.state = DollState.falling →
      d.rotationX = -PIhalf → 0 < dt →
      Doll.fall dt d = { d with state := DollState.fallen }) := by
  refine ⟨?_, ?_, ?_, ?_⟩
  · intro dt d hs hlt
    unfold Doll.fall
    rw [if_pos hs]
    dsimp only
    rw [if_pos hlt]
  · intro dt d hs hge
    have he : Doll.fall dt d = { d with rotationX := d.rotationX - 5 * dt } := by
      unfold Doll.fall
      rw [if_pos hs]
      dsimp only
      rw [if_neg (not_lt.mpr hge)]
    refine ⟨he, fun hdt => ?_⟩
    rw [he]
    dsimp only
    linarith
  · intro dt d hs
    unfold Doll.fall
    rw [if_neg hs]
  · intro dt d hs hrot hdt
    have hlt : d.rotationX - 5 * dt < -PIhalf := by
      rw [hrot]
      linarith
    unfold Doll.fall
    rw [if_pos hs]
    dsimp only
    rw [if_pos hlt, ← hrot]

/-- Witness for the amended C5 at a concrete falling doll and dt = 1: the
step crosses the terminal angle, clamps to −π/2 and sets the state to
fallen. -/
theorem fall_clamp_amended_witness :
    Doll.fall 1 fallingDoll =
      { fallingDoll with rotationX := -PIhalf, state := DollState.fallen } :=
  fall_clamp_amended.1 1 fallingDoll rfl (by norm_num [fallingDoll, PIhalf])

/-- C1: `shoot` considers only the nearest intersected target: the rest of
the intersection list is irrelevant; a standing nearest target transitions
to falling, exactly its point value is credited and a hit is reported; a
non-standing nearest target or an empty intersection list reports a miss
and changes nothing; a second shot at the same target after a hit reports a
miss and adds no score. -/
theorem shoot_credits_nearest_standing_once :
    (∀ (g : Game) (i : ℕ) (rest : List ℕ), g.shoot (i :: rest) = g.shoot [i]) ∧
    (∀ (g : Game) (i : ℕ) (rest : List ℕ) (d : Doll),
      g.isPlaying = true → g.dolls[i]? = some d →
      d.state = DollState.standing →
      g.shoot (i :: rest) =
        ({ g with
           score := g.score + d.points
           dolls := g.dolls.set i { d with state := DollState.falling } },
         true)) ∧
    (∀ (g : Game) (i : ℕ) (rest : List ℕ) (d : Doll),
      g.dolls[i]? = some d → d.state ≠ DollState.standing →
      g.shoot (i :: rest) = (g, false)) ∧
    (∀ g : Game, g.shoot [] = (g, false)) ∧
    (∀ (g : Game) (i : ℕ) (r1 r2 : List ℕ) (d : Doll),
      g.isPlaying = true → g.dolls[i]? = some d →
      d.state = DollState.standing →
      ((g.shoot (i :: r1)).1).shoot (i :: r2) =
        (((g.shoot (i :: r1)).1), false)) := by
  refine ⟨fun g i rest => rfl, shoot_hit_standing, shoot_not_standing, ?_, ?_⟩
  · intro g
    by_cases hp : g.isPlaying = true
    · simp [Game.shoot, hp]
    · exact shoot_no_play g [] (by simpa using hp)
  · intro g i r1 r2 d hp hd hs
    have h1 := shoot_hit_standing g i r1 d hp hd hs
    have hd' : ((g.shoot (i :: r1)).1).dolls[i]? =
        some { d with state := DollState.falling } := by
      rw [h1]
      dsimp only
      rw [List.getElem?_set_self', hd]
      rfl
    exact shoot_not_standing _ i r2 _ hd' (by simp)

/-- Witness for C1: the first shot of a fresh match at the nearest
intersected doll (index 0, standing, worth 30) scores it and reports a
hit. -/
theorem shoot_credits_nearest_standing_once_witness :
    (Game.start initGame).shoot [0] =
      ({ Game.start initGame with
         score := (Game.start initGame).score + dollPoints 0
         dolls := (Game.start initGame).dolls.set 0
           { layerIndex := 0, points := dollPoints 0,
             state := DollState.falling, rotationX := 0 } },
       true) := by
  have hd : (Game.start initGame).dolls[0]? =
      some { layerIndex := 0, points := dollPoints 0,
             state := DollState.standing, rotationX := 0 } := by
    simp [Game.start, initGame, createDolls, mkShelf, Doll.reset,
      List.getElem?_append, List.getElem?_replicate]
  exact shoot_credits_nearest_standing_once.2.1 (Game.start initGame) 0 [] _
    rfl hd rfl

/-- Unfolding of `update` on the frame on which the timer runs out. -/
theorem update_ends (g : Game) (dt : ℚ) (hp : g.isPlaying = true)
    (h : g.timeLeft - dt ≤ 0) :
    g.update dt = { g with
      timeLeft := 0
      isPlaying := false
      dolls := g.dolls.map (Doll.fall dt) } := by
  unfold Game.update
  rw [if_pos hp]
  dsimp only
  rw [if_pos h]

/-- Unfolding of `update` on a frame with time remaining afterwards. -/
theorem update_continues (g : Game) (dt : ℚ) (hp : g.isPlaying = true)
    (h : ¬g.timeLeft - dt ≤ 0) :
    g.update dt = { g with
      timeLeft := g.timeLeft - dt
      dolls := g.dolls.map (Doll.fall dt) } := by
  unfold Game.update
  rw [if_pos hp]
  dsimp only
  rw [if_neg h]

/-- One update keeps the timer nonnegative. -/
theorem update_timeLeft_nonneg (g : Game) (dt : ℚ) (h : 0 ≤ g.timeLeft) :
    0 ≤ (g.update dt).timeLeft := by
  by_cases hp : g.isPlaying = true
  · by_cases hle : g.timeLeft - dt ≤ 0
    · rw [update_ends g dt hp hle]
    · rw [update_continues g dt hp hle]
      dsimp only
      linarith
  · rw [update_not_playing g dt (by simpa using hp)]
    exact h

/-- A covering dt sequence drives the timer to exactly 0 and ends the
match. -/
theorem runUpdates_reaches_zero (g : Game) (dts : List ℚ)
    (hp : g.isPlaying = true) (h0 : 0 < g.timeLeft)
    (hsum : g.timeLeft ≤ dts.sum) :
    (runUpdates g dts).timeLeft = 0 ∧ (runUpdates g dts).isPlaying = false := by
  induction dts generalizing g with
  | nil =>
    simp only [List.sum_nil] at hsum
    linarith
  | cons dt rest ih =>
    rw [runUpdates_cons]
    by_cases hle : g.timeLeft - dt ≤ 0
    · rw [update_ends g dt hp hle, runUpdates_not_playing _ _ rfl]
      exact ⟨rfl, rfl⟩
    · rw [update_continues g dt hp hle]
      simp only [List.sum_cons] at hsum
      exact ih _ hp (by dsimp only; linarith) (by dsimp only; linarith)

/-- C2: the countdown is clamped at 0 so `timeLeft` is never observed
negative after any update; for every dt sequence whose sum covers the
remaining time of a playing match, `timeLeft` reaches exactly 0 and
`isPlaying` becomes false; and once `isPlaying` is false every further
`update` is a no-op, so the match-end transition fires exactly once. -/
theorem timer_ends_exactly_once :
    (∀ (g : Game) (dt : ℚ), g.isPlaying = false → g.update dt = g) ∧
    (∀ (g : Game) (dt : ℚ), 0 ≤ g.timeLeft → 0 ≤ (g.update dt).timeLeft) ∧
    (∀ (g : Game) (dts : List ℚ), 0 ≤ g.timeLeft →
      0 ≤ (runUpdates g dts).timeLeft) ∧
    (∀ (g : Game) (dts : List ℚ), g.isPlaying = true → 0 < g.timeLeft →
      g.timeLeft ≤ dts.sum →
      (runUpdates g dts).timeLeft = 0 ∧
        (runUpdates g dts).isPlaying = false) := by
  refine ⟨update_not_playing, update_timeLeft_nonneg, ?_, runUpdates_reaches_zero⟩
  intro g dts h
  induction dts generalizing g with
  | nil => exact h
  | cons dt rest ih =>
    rw [runUpdates_cons]
    exact ih _ (update_timeLeft_nonneg g dt h)

/-- Witness for C2: a fresh 30-second match run with a single 31-second
update ends with the timer at exactly 0 and the match over. -/
theorem timer_ends_exactly_once_witness :
    (runUpdates (Game.start initGame) [31]).timeLeft = 0 ∧
    (runUpdates (Game.start initGame) [31]).isPlaying = false :=
  timer_ends_exactly_once.2.2.2 (Game.start initGame) [31] rfl
    (by norm_num [Game.start, totalTime])
    (by norm_num [Game.start, totalTime])

/-- The cooldown decay does not touch the pinch latch. -/
theorem decay_isPinching (dt : ℚ) (s : PinchState) :
    (decayCooldown dt s).isPinching = s.isPinching := by
  unfold decayCooldown
  split <;> rfl

/-- The fire condition of one gesture frame, exactly as coded. -/
theorem gesture_fire_iff (d : ℚ) (s : PinchState) :
    (processGesture d s).2 = true ↔
      d < PINCH_THRESHOLD ∧ s.isPinching = false ∧ s.cooldown ≤ 0 := by
  by_cases hd : d < PINCH_THRESHOLD
  · by_cases hp : s.isPinching = false
    · by_cases hc : s.cooldown ≤ 0
      · simp [processGesture, hd, hp, hc]
      · simp [processGesture, hd, hp, hc]
    · simp [processGesture, hd, hp]
  · simp [processGesture, hd]

/-- On fire, the latch is set and the cooldown reset to half a second. -/
theorem gesture_fire_sets (d : ℚ) (s : PinchState)
    (h : (processGesture d s).2 = true) :
    (processGesture d s).1 = { isPinching := true, cooldown := 1 / 2 } := by
  obtain ⟨h1, h2, h3⟩ := (gesture_fire_iff d s).mp h
  simp [processGesture, h1, h2, h3]

theorem runFrames_cons (f : ℚ × ℚ) (rest : List (ℚ × ℚ)) (s : PinchState) :
    runFrames (f :: rest) s =
      ((runFrames rest (stepFrame f.1 f.2 s).1).1,
       (stepFrame f.1 f.2 s).2 :: (runFrames rest (stepFrame f.1 f.2 s).1).2) :=
  rfl

/-- While the latch is held and the pinch persists, no frame fires. -/
theorem sustained_pinch_no_fire (frames : List (ℚ × ℚ)) (s : PinchState)
    (hp : s.isPinching = true)
    (hall : ∀ f ∈ frames, f.2 < PINCH_THRESHOLD) :
    (runFrames frames s).2.count true = 0 ∧
    (runFrames frames s).1.isPinching = true := by
  induction frames generalizing s with
  | nil => exact ⟨rfl, hp⟩
  | cons f rest ih =>
    have hd := hall f (List.mem_cons_self f rest)
    have hstep : stepFrame f.1 f.2 s = (decayCooldown f.1 s, false) := by
      unfold stepFrame processGesture
      rw [if_pos hd, if_neg]
      intro hcon
      rw [decay_isPinching, hp] at hcon
      cases hcon.1
    have hrest := ih (decayCooldown f.1 s) (by rw [decay_isPinching]; exact hp)
      fun f hf => hall f (List.mem_cons_of_mem _ hf)
    rw [runFrames_cons, hstep]
    simpa using hrest

/-- C3: a gesture frame fires exactly when the pinch distance is below 0.05
while the latch is clear and the cooldown has elapsed; firing sets the latch
and a 0.5 s cooldown; a sustained pinch never fires again while held; and on
the sample stream [0.01, 0.01, 0.01, 0.06, 0.01] with dt = 0.1 per frame,
exactly the first frame fires. -/
theorem pinch_debounce :
    (∀ (d : ℚ) (s : PinchState),
      (processGesture d s).2 = true ↔
        d < PINCH_THRESHOLD ∧ s.isPinching = false ∧ s.cooldown ≤ 0) ∧
    (∀ (d : ℚ) (s : PinchState), (processGesture d s).2 = true →
      (processGesture d s).1 = { isPinching := true, cooldown := 1 / 2 }) ∧
    (∀ (frames : List (ℚ × ℚ)) (s : PinchState), s.isPinching = true →
      (∀ f ∈ frames, f.2 < PINCH_THRESHOLD) →
      (runFrames frames s).2.count true = 0 ∧
      (runFrames frames s).1.isPinching = true) ∧
    (runFrames [(1/10, 1/100), (1/10, 1/100), (1/10, 1/100), (1/10, 6/100),
        (1/10, 1/100)] initPinch).2 =
      [true, false, false, false, false] := by
  refine ⟨gesture_fire_iff, gesture_fire_sets, sustained_pinch_no_fire, ?_⟩
  norm_num [runFrames, stepFrame, decayCooldown, processGesture, initPinch,
    PINCH_THRESHOLD]

/-- Witness for C3: the first sub-threshold sample from the idle state
fires, sets the latch and the cooldown, and a held pinch does not fire. -/
theorem pinch_debounce_witness :
    (processGesture (1 / 100) initPinch).2 = true ∧
    (processGesture (1 / 100) initPinch).1 =
      { isPinching := true, cooldown := 1 / 2 } ∧
    (runFrames [(1 / 10, 1 / 100)]
        { isPinching := true, cooldown := 0 }).2.count true = 0 := by
  have hfire := (pinch_debounce.1 (1 / 100) initPinch).mpr
    (by norm_num [initPinch, PINCH_THRESHOLD])
  refine ⟨hfire, pinch_debounce.2.1 (1 / 100) initPinch hfire, ?_⟩
  exact (pinch_debounce.2.2.1 [(1 / 10, 1 / 100)]
    { isPinching := true, cooldown := 0 } rfl
    (by norm_num [PINCH_THRESHOLD])).1

/-- `start` of the real game establishes the scoring invariant. -/
theorem scoreInv_start : ScoreInv (Game.start initGame) := by
  constructor
  · show (Game.start initGame).score = downedOf (Game.start initGame).dolls
    rw [downedOf_standing _ fun d hd => (start_resets_dolls initGame d hd).1]
    rfl
  · rw [start_points]
    rfl

/-- Both operations preserve the scoring invariant. -/
theorem scoreInv_applyOp (g : Game) (op : Op) (h : ScoreInv g) :
    ScoreInv (g.applyOp op) := by
  obtain ⟨h1, h2⟩ := h
  refine ⟨?_, (applyOp_points g op).trans h2⟩
  cases op with
  | upd dt =>
    show (g.update dt).score = downedOf (g.update dt).dolls
    rw [update_score, update_dolls]
    split
    · rw [downedOf_map_fall]
      exact h1
    · exact h1
  | sht hits =>
    rcases shoot_cases g hits with he | ⟨j, dj, hd, hs, he⟩
    · show ((g.shoot hits).1).score = downedOf ((g.shoot hits).1).dolls
      rw [he]
      exact h1
    · show ((g.shoot hits).1).score = downedOf ((g.shoot hits).1).dolls
      rw [he]
      dsimp only
      rw [downedOf_set_falling g.dolls j dj hd hs]
      rw [h1]
      rfl

/-- The scoring invariant holds after any operation sequence. -/
theorem scoreInv_runOps (g : Game) (ops : List Op) (h : ScoreInv g) :
    ScoreInv (runOps g ops) := by
  induction ops generalizing g with
  | nil => exact h
  | cons op rest ih => exact ih _ (scoreInv_applyOp g op h)

/-- C10: at every point of a match (any sequence of update/shoot operations
after `start`), the score equals the total point value of the targets that
are not standing; hence it is a multiple of 10 and never exceeds 340, the
total value of all 18 targets. -/
theorem score_equals_downed_value (ops : List Op) :
    (runOps (Game.start initGame) ops).score =
      downedValue (runOps (Game.start initGame) ops) ∧
    10 ∣ (runOps (Game.start initGame) ops).score ∧
    (runOps (Game.start initGame) ops).score ≤ 340 := by
  obtain ⟨h1, h2⟩ := scoreInv_runOps (Game.start initGame) ops scoreInv_start
  refine ⟨h1, ?_, ?_⟩
  · rw [h1]
    show 10 ∣ downedOf _
    apply List.dvd_sum
    intro x hx
    have hx' : x ∈ ((runOps (Game.start initGame) ops).dolls).map Doll.points := by
      obtain ⟨d, hdmem, rfl⟩ := List.mem_map.mp hx
      exact List.mem_map_of_mem _ (List.mem_of_mem_filter hdmem)
    rw [h2] at hx'
    have hall : ∀ y ∈ createDolls.map Doll.points, 10 ∣ y := by decide
    exact hall x hx'
  · rw [h1]
    calc downedValue (runOps (Game.start initGame) ops)
        ≤ ((runOps (Game.start initGame) ops).dolls.map Doll.points).sum :=
          downedOf_le_total _
      _ = (createDolls.map Doll.points).sum := by rw [h2]
      _ = 340 := by decide

end Shateki
